import Mathlib

/-!
Shallow embedding of the core of the ama-pi-ano repository:
the music theory engine (scale resolution, diatonic chord building,
configuration mutators) and the digit playback coordinator
(initialization gate, retrigger throttle, theme state machine,
polyphonic gain compensation), together with theorems settling the
specification claims about them.
-/

namespace AmaPiano

/-! ### Music theory engine (musicTheory.ts) -/

/-- The fixed chromatic note table used by the manual scale computation. -/
def chromatic : List String :=
  ["C", "C#", "D", "D#", "E", "F"] ++ ["F#", "G", "G#", "A", "A#", "B"]

/-- One entry of the `MODES` object: the 8 semitone offsets and the
descriptive character string. -/
structure ModeSpec where
  intervals : List Nat
  character : String
deriving DecidableEq, Repr

/-- The `MODES` constant: the 8 named modes with their interval patterns. -/
def MODES : List (String × ModeSpec) :=
  [ ("ionian", ⟨[0, 2, 4, 5, 7, 9, 11, 12], "bright, happy, major"⟩),
    ("dorian", ⟨[0, 2, 3, 5, 7, 9, 10, 12], "bittersweet, jazzy, contemplative"⟩),
    ("phrygian", ⟨[0, 1, 3, 5, 7, 8, 10, 12], "dark, exotic, Spanish"⟩),
    ("lydian", ⟨[0, 2, 4, 6, 7, 9, 11, 12], "ethereal, dreamy, floating"⟩),
    ("mixolydian", ⟨[0, 2, 4, 5, 7, 9, 10, 12], "bluesy, groovy, dominant"⟩),
    ("aeolian", ⟨[0, 2, 3, 5, 7, 8, 10, 12], "sad, natural minor, melancholic"⟩),
    ("locrian", ⟨[0, 1, 3, 5, 6, 8, 10, 12], "unstable, diminished, tense"⟩),
    ("harmonic", ⟨[0, 2, 3, 5, 7, 8, 11, 12], "mysterious, classical, Middle Eastern"⟩) ]

/-- The names of the 8 modes (`Object.keys(MODES)`), i.e. the `ModeType`
string domain. -/
def modeNames : List String :=
  ["ionian", "dorian", "phrygian", "lydian", "mixolydian", "aeolian", "locrian", "harmonic"]

/-- Mutable fields of the `MusicTheoryEngine` class, with their
initializers as defaults. -/
structure MusicTheoryEngine where
  currentKey : String := "C"
  currentMode : String := "ionian"
  currentScale : String := "major"
  currentChord : String := "triads"
deriving DecidableEq, Repr

/-- Embedding of `digitToScaleDegree`: digits 2..9 map to scale degrees
0..7, anything else to `null`. -/
def digitToScaleDegree (digit : Nat) : Option Nat :=
  if digit < 2 ∨ 9 < digit then none else some (digit - 2)

/-- Embedding of `generateScaleManually`: map the 8 semitone offsets of
the mode onto the chromatic table starting from the index of the key.
The source checks `chromatic.indexOf(key) === -1`, which is equivalent to
the membership test used here; on an unknown key it falls back to the C
major scale. -/
def generateScaleManually (e : MusicTheoryEngine) (intervals : List Nat) : List String :=
  if e.currentKey ∈ chromatic then
    intervals.map (fun interval =>
      chromatic.getD ((chromatic.indexOf e.currentKey + interval) % 12) "")
  else
    ["C", "D", "E", "F", "G", "A", "B", "C"]

/-- Interval pattern stored in `MODES` for a mode name (empty for a name
that is not one of the 8 mode keys). -/
def modeIntervalsFor (mode : String) : List Nat :=
  ((MODES.lookup mode).map ModeSpec.intervals).getD []

/-- Embedding of `getCurrentScaleNotes`.  The source first asks the
external Tonal.js library for the scale and falls back to
`generateScaleManually` when the library yields nothing or throws; the
library is not part of this repository, and both the fallback contract in
the code and the spec require the two paths to produce the same notes, so
the resolver is embedded as the in-repository manual computation over the
intervals of the current mode. -/
def getCurrentScaleNotes (e : MusicTheoryEngine) : List String :=
  generateScaleManually e (modeIntervalsFor e.currentMode)

/-- Embedding of `buildTriadFromScale`: root, third and fifth over the
7-note cycle.  Note that in the source only the octave of the fifth is
adjusted; the third is always placed at the base octave. -/
def buildTriadFromScale (scaleDegree : Nat) (scaleNotes : List String) (octave : Nat) :
    List String :=
  let rootIndex := scaleDegree
  let scaleLength := 7
  let root := scaleNotes.getD rootIndex ""
  let third := scaleNotes.getD ((rootIndex + 2) % scaleLength) ""
  let fifth := scaleNotes.getD ((rootIndex + 4) % scaleLength) ""
  [ root ++ toString octave,
    third ++ toString octave,
    fifth ++ toString (octave + (if rootIndex + 4 ≥ scaleLength then 1 else 0)) ]

/-- Embedding of `buildSeventhFromScale`: triad plus the diatonic 7th;
the fifth and the 7th get the octave adjustment, the third does not. -/
def buildSeventhFromScale (scaleDegree : Nat) (scaleNotes : List String) (octave : Nat) :
    List String :=
  let rootIndex := scaleDegree
  let scaleLength := 7
  let root := scaleNotes.getD rootIndex ""
  let third := scaleNotes.getD ((rootIndex + 2) % scaleLength) ""
  let fifth := scaleNotes.getD ((rootIndex + 4) % scaleLength) ""
  let seventh := scaleNotes.getD ((rootIndex + 6) % scaleLength) ""
  [ root ++ toString octave,
    third ++ toString octave,
    fifth ++ toString (octave + (if rootIndex + 4 ≥ scaleLength then 1 else 0)),
    seventh ++ toString (octave + (if rootIndex + 6 ≥ scaleLength then 1 else 0)) ]

/-- Embedding of `buildExtendedFromScale`: seventh chord plus the 9th,
which is always placed one octave up. -/
def buildExtendedFromScale (scaleDegree : Nat) (scaleNotes : List String) (octave : Nat) :
    List String :=
  let rootIndex := scaleDegree
  let scaleLength := 7
  let root := scaleNotes.getD rootIndex ""
  let third := scaleNotes.getD ((rootIndex + 2) % scaleLength) ""
  let fifth := scaleNotes.getD ((rootIndex + 4) % scaleLength) ""
  let seventh := scaleNotes.getD ((rootIndex + 6) % scaleLength) ""
  let ninth := scaleNotes.getD ((rootIndex + 1) % scaleLength) ""
  [ root ++ toString octave,
    third ++ toString octave,
    fifth ++ toString (octave + (if rootIndex + 4 ≥ scaleLength then 1 else 0)),
    seventh ++ toString (octave + (if rootIndex + 6 ≥ scaleLength then 1 else 0)),
    ninth ++ toString (octave + 1) ]

/-- Embedding of `digitToChordNotes`: map a digit to the note list for
the currently configured chord density.  The `switch` on `currentChord`
(with its pairs of recognized labels and a defaulting final case) is
rendered as the corresponding chain of string comparisons. -/
def digitToChordNotes (e : MusicTheoryEngine) (digit : Nat) (octave : Nat) : List String :=
  (digitToScaleDegree digit).elim [] (fun scaleDegree =>
    let scaleNotes := getCurrentScaleNotes e
    let rootNote := scaleNotes.getD scaleDegree ""
    if rootNote = "" then []
    else if e.currentChord = "none" ∨ e.currentChord = "Single Notes Only" then
      [rootNote ++ toString octave]
    else if e.currentChord = "triads" ∨ e.currentChord = "Basic Triads" then
      buildTriadFromScale scaleDegree scaleNotes octave
    else if e.currentChord = "seventh" ∨ e.currentChord = "Seventh Chords" then
      buildSeventhFromScale scaleDegree scaleNotes octave
    else if e.currentChord = "extended" ∨ e.currentChord = "Extended Chords" then
      buildExtendedFromScale scaleDegree scaleNotes octave
    else
      [rootNote ++ toString octave])

/-- The `validKeys` list of `setKey` (textually the same 12 names as the
chromatic table). -/
def validKeys : List String :=
  ["C", "C#", "D", "D#", "E", "F"] ++ ["F#", "G", "G#", "A", "A#", "B"]

/-- The message of the error thrown by `setKey` on an invalid key. -/
def keyErrorMsg (key : String) : String :=
  "Invalid key: " ++ key ++ ". Valid keys: " ++ String.intercalate ", " validKeys

/-- Embedding of `setKey`: validate against `validKeys`; on success
update the stored key, on failure leave the state untouched and surface
the error message (the thrown exception is modelled as the
`Option String` component). -/
def setKey (e : MusicTheoryEngine) (key : String) : MusicTheoryEngine × Option String :=
  if key ∈ validKeys then ({ e with currentKey := key }, none)
  else (e, some (keyErrorMsg key))

/-- The message of the error thrown by `setMode` on an invalid mode. -/
def modeErrorMsg (mode : String) : String :=
  "Invalid mode: " ++ mode ++ ". Valid modes: " ++ String.intercalate ", " modeNames

/-- Own property names of `Object.prototype`, every one holding a truthy
value (a function, or for `__proto__` the prototype object itself).  A
property read on a plain object literal such as `MODES` falls back to the
prototype chain, so a lookup with one of these names yields a truthy
value even though the literal defines no such key. -/
def objectPrototypeNames : List String :=
  [ "constructor", "hasOwnProperty", "isPrototypeOf", "propertyIsEnumerable",
    "toLocaleString", "toString", "valueOf", "__proto__",
    "__defineGetter__", "__defineSetter__", "__lookupGetter__", "__lookupSetter__" ]

/-- Embedding of `setMode`.  The source guard is `if (!MODES[mode])` on
the plain object literal `MODES`, and a JS property read walks the
prototype chain: a name of an inherited `Object.prototype` member (for
example "toString") yields that truthy member, passes the guard, and is
stored as the current mode even though it names no mode.  Every other
name outside the 8 mode keys reads `undefined` and throws. -/
def setMode (e : MusicTheoryEngine) (mode : String) : MusicTheoryEngine × Option String :=
  if mode ∈ modeNames ∨ mode ∈ objectPrototypeNames then
    ({ e with currentMode := mode }, none)
  else (e, some (modeErrorMsg mode))

/-- Embedding of `setChord`: stored without validation. -/
def setChord (e : MusicTheoryEngine) (chord : String) : MusicTheoryEngine :=
  { e with currentChord := chord }

/-! ### Digit playback coordinator (audioEngine.ts) -/

/-- The two themes. -/
inductive Theme
  | dark
  | light
deriving DecidableEq, Repr

/-- A call dispatched to the external Tone Generator by `playDigit`:
a kick trigger, a hi-hat trigger, or a melodic trigger on the synth
selected by the current theme. -/
inductive Dispatch
  | kick
  | hihat
  | melody (theme : Theme) (notes : List String)
deriving DecidableEq, Repr

/-- The `AudioEngine` fields relevant to digit playback, with their
initializers as defaults.  Time is modelled in seconds as a rational. -/
structure AudioEngineState where
  initialized : Bool := false
  lastTriggerTime : ℚ := 0
  currentTheme : Theme := Theme.dark
  musicTheory : MusicTheoryEngine := {}
deriving DecidableEq, Repr

/-- Melody branch of the switch in `playDigit` for digits 2..9: resolve
the chord notes at octave 4 and trigger the synth of the current theme
unless the note list came back empty. -/
def melodyStep (s : AudioEngineState) (digitNum : Nat) : AudioEngineState × List Dispatch :=
  let chordNotes := digitToChordNotes s.musicTheory digitNum 4
  if chordNotes = [] then (s, [])
  else (s, [Dispatch.melody s.currentTheme chordNotes])

/-- The switch of `playDigit` over the digit character; a character with
no case (for example the decimal point) falls through with no dispatch. -/
def playDigitDispatch (s : AudioEngineState) (digit : Char) : AudioEngineState × List Dispatch :=
  if digit = '0' then ({ s with currentTheme := Theme.dark }, [Dispatch.kick])
  else if digit = '1' then ({ s with currentTheme := Theme.light }, [Dispatch.hihat])
  else if digit = '2' then melodyStep s 2
  else if digit = '3' then melodyStep s 3
  else if digit = '4' then melodyStep s 4
  else if digit = '5' then melodyStep s 5
  else if digit = '6' then melodyStep s 6
  else if digit = '7' then melodyStep s 7
  else if digit = '8' then melodyStep s 8
  else if digit = '9' then melodyStep s 9
  else (s, [])

/-- The minimum interval between accepted triggers: `0.05` seconds. -/
def minTriggerGap : ℚ := 1 / 20

/-- Embedding of `playDigit`: no-op before initialization; drop the call
when it comes less than 50 ms after the last accepted trigger; otherwise
record the trigger time and run the digit switch. -/
def playDigit (s : AudioEngineState) (digit : Char) (currentTime : ℚ) :
    AudioEngineState × List Dispatch :=
  if s.initialized = false then (s, [])
  else if currentTime - s.lastTriggerTime < minTriggerGap then (s, [])
  else playDigitDispatch { s with lastTriggerTime := currentTime } digit

/-- Embedding of `calculatePolyphonicVolume`: logarithmic gain
compensation, `Math.max(-30, Math.min(0, base - log2(N) * 3))` for more
than one note. -/
noncomputable def calculatePolyphonicVolume (baseVolume : ℝ) (noteCount : Nat) : ℝ :=
  if noteCount ≤ 1 then baseVolume
  else max (-30) (min 0 (baseVolume - Real.logb 2 noteCount * 3))

/-- The ten digit characters. -/
def digitChars : List Char :=
  ['0', '1', '2', '3', '4', '5', '6', '7', '8', '9']

/-- An engine configured with the given key, mode and chord density. -/
def mkEngine (key mode chord : String) : MusicTheoryEngine :=
  { currentKey := key, currentMode := mode, currentScale := "major", currentChord := chord }

/-- Chord-density labels recognized by the switch in `digitToChordNotes`. -/
def recognizedChordNames : List String :=
  [ "none", "Single Notes Only", "triads", "Basic Triads",
    "seventh", "Seventh Chords", "extended", "Extended Chords" ]

/-- Chord tone stacked every other scale step: the scale note at index
`(degree + interval) mod 7` suffixed with the given octave number. -/
def chordTone (scaleNotes : List String) (degree interval oct : Nat) : String :=
  scaleNotes.getD ((degree + interval) % 7) "" ++ toString oct

/-- Per-tone octave under the wrap rule: one octave up exactly when the
unwrapped sum `degree + interval` reaches the 7-note cycle length. -/
def wrappedOctave (octave degree interval : Nat) : Nat :=
  if degree + interval ≥ 7 then octave + 1 else octave

/-- Amended octave-wrap reading of the triad builder: the root and the
third sit at the base octave (the builder applies no wrap to the third),
and only the fifth is wrapped, exactly when `degree + 4 ≥ 7`. -/
def triadOctaveRule (degree : Nat) (scaleNotes : List String) (octave : Nat) : List String :=
  [ scaleNotes.getD degree "" ++ toString octave,
    chordTone scaleNotes degree 2 octave,
    chordTone scaleNotes degree 4 (wrappedOctave octave degree 4) ]

/-- Amended octave-wrap reading of the seventh-chord builder: as for the
triad, plus the 7th wrapped exactly when `degree + 6 ≥ 7`. -/
def seventhOctaveRule (degree : Nat) (scaleNotes : List String) (octave : Nat) : List String :=
  [ scaleNotes.getD degree "" ++ toString octave,
    chordTone scaleNotes degree 2 octave,
    chordTone scaleNotes degree 4 (wrappedOctave octave degree 4),
    chordTone scaleNotes degree 6 (wrappedOctave octave degree 6) ]

/-- An initialized engine in its start configuration, used to instantiate
theorems with hypotheses at concrete inputs. -/
def readyEngine : AudioEngineState :=
  { initialized := true, lastTriggerTime := 0, currentTheme := Theme.dark, musicTheory := {} }

/-! ### Shared lemmas -/


lemma chromatic_not_blank : ∀ x ∈ chromatic, x ≠ "" := by decide

lemma generateScaleManually_mem (e : MusicTheoryEngine) (intervals : List Nat) :
    ∀ x ∈ generateScaleManually e intervals, x ∈ chromatic := by
  intro x hx
  unfold generateScaleManually at hx
  by_cases hk : e.currentKey ∈ chromatic
  · rw [if_pos hk] at hx
    obtain ⟨i, _, rfl⟩ := List.mem_map.mp hx
    have hlt : (chromatic.indexOf e.currentKey + i) % 12 < chromatic.length :=
      Nat.mod_lt _ (by decide)
    rw [List.getD_eq_getElem _ _ hlt]
    exact List.getElem_mem _
  · rw [if_neg hk] at hx
    fin_cases hx <;> decide

lemma getCurrentScaleNotes_mem (e : MusicTheoryEngine) :
    ∀ x ∈ getCurrentScaleNotes e, x ∈ chromatic :=
  generateScaleManually_mem e _

lemma modeIntervalsFor_length (mode : String) (hm : mode ∈ modeNames) :
    (modeIntervalsFor mode).length = 8 := by
  fin_cases hm <;> rfl

lemma generateScaleManually_length (e : MusicTheoryEngine) (intervals : List Nat)
    (h : intervals.length = 8) : (generateScaleManually e intervals).length = 8 := by
  unfold generateScaleManually
  split
  · simpa using h
  · rfl

lemma getCurrentScaleNotes_length (e : MusicTheoryEngine) (hm : e.currentMode ∈ modeNames) :
    (getCurrentScaleNotes e).length = 8 :=
  generateScaleManually_length e _ (modeIntervalsFor_length _ hm)

lemma scale_getD_mem (e : MusicTheoryEngine) (hm : e.currentMode ∈ modeNames)
    (d : Nat) (hd : d < 8) : (getCurrentScaleNotes e).getD d "" ∈ chromatic := by
  have hlt : d < (getCurrentScaleNotes e).length := by
    rw [getCurrentScaleNotes_length e hm]; exact hd
  rw [List.getD_eq_getElem _ _ hlt]
  exact getCurrentScaleNotes_mem e _ (List.getElem_mem _)

lemma scale_getD_ne (e : MusicTheoryEngine) (hm : e.currentMode ∈ modeNames)
    (d : Nat) (hd : d < 8) : (getCurrentScaleNotes e).getD d "" ≠ "" :=
  chromatic_not_blank _ (scale_getD_mem e hm d hd)

lemma digitToScaleDegree_eq {digit : Nat} (h2 : 2 ≤ digit) (h9 : digit ≤ 9) :
    digitToScaleDegree digit = some (digit - 2) := by
  unfold digitToScaleDegree
  rw [if_neg (by omega : ¬ (digit < 2 ∨ 9 < digit))]

lemma digitToChordNotes_none_eval (key mode : String) (digit oct : Nat)
    (h2 : 2 ≤ digit) (h9 : digit ≤ 9) (hm : mode ∈ modeNames) :
    digitToChordNotes (mkEngine key mode "none") digit oct =
      [(getCurrentScaleNotes (mkEngine key mode "none")).getD (digit - 2) "" ++ toString oct] := by
  have hroot := scale_getD_ne (mkEngine key mode "none") hm (digit - 2) (by omega)
  simp only [digitToChordNotes, digitToScaleDegree_eq h2 h9, Option.elim]
  rw [if_neg hroot]
  simp [mkEngine]

lemma digitToChordNotes_triads_eval (key mode : String) (digit oct : Nat)
    (h2 : 2 ≤ digit) (h9 : digit ≤ 9) (hm : mode ∈ modeNames) :
    digitToChordNotes (mkEngine key mode "triads") digit oct =
      buildTriadFromScale (digit - 2) (getCurrentScaleNotes (mkEngine key mode "triads")) oct := by
  have hroot := scale_getD_ne (mkEngine key mode "triads") hm (digit - 2) (by omega)
  simp only [digitToChordNotes, digitToScaleDegree_eq h2 h9, Option.elim]
  rw [if_neg hroot]
  simp [mkEngine]

lemma digitToChordNotes_seventh_eval (key mode : String) (digit oct : Nat)
    (h2 : 2 ≤ digit) (h9 : digit ≤ 9) (hm : mode ∈ modeNames) :
    digitToChordNotes (mkEngine key mode "seventh") digit oct =
      buildSeventhFromScale (digit - 2) (getCurrentScaleNotes (mkEngine key mode "seventh")) oct := by
  have hroot := scale_getD_ne (mkEngine key mode "seventh") hm (digit - 2) (by omega)
  simp only [digitToChordNotes, digitToScaleDegree_eq h2 h9, Option.elim]
  rw [if_neg hroot]
  simp [mkEngine]

lemma digitToChordNotes_extended_eval (key mode : String) (digit oct : Nat)
    (h2 : 2 ≤ digit) (h9 : digit ≤ 9) (hm : mode ∈ modeNames) :
    digitToChordNotes (mkEngine key mode "extended") digit oct =
      buildExtendedFromScale (digit - 2) (getCurrentScaleNotes (mkEngine key mode "extended")) oct := by
  have hroot := scale_getD_ne (mkEngine key mode "extended") hm (digit - 2) (by omega)
  simp only [digitToChordNotes, digitToScaleDegree_eq h2 h9, Option.elim]
  rw [if_neg hroot]
  simp [mkEngine]

lemma digitToChordNotes_default_eval (key mode chord : String) (digit oct : Nat)
    (h2 : 2 ≤ digit) (h9 : digit ≤ 9) (hm : mode ∈ modeNames)
    (hc : chord ∉ recognizedChordNames) :
    digitToChordNotes (mkEngine key mode chord) digit oct =
      [(getCurrentScaleNotes (mkEngine key mode chord)).getD (digit - 2) "" ++ toString oct] := by
  have hroot := scale_getD_ne (mkEngine key mode chord) hm (digit - 2) (by omega)
  simp only [recognizedChordNames, List.mem_cons, List.not_mem_nil, or_false, not_or] at hc
  obtain ⟨hc1, hc2, hc3, hc4, hc5, hc6, hc7, hc8⟩ := hc
  simp only [digitToChordNotes, digitToScaleDegree_eq h2 h9, Option.elim]
  rw [if_neg hroot]
  simp [mkEngine, hc1, hc2, hc3, hc4, hc5, hc6, hc7, hc8]

/-! ### Claim theorems -/


/-- C1 counterexample: at degree 5 the unwrapped sum for the third is
`5 + 2 = 7 ≥ 7`, yet the triad builder leaves the third at the base
octave (on the default C-ionian scale at octave 4 it emits `C4`, not the
`C5` the claimed rule requires). -/
theorem claim_C1_counterexample :
    7 ≤ 5 + 2 ∧
    (buildTriadFromScale 5 (getCurrentScaleNotes {}) 4).getD 1 "" ≠
      (getCurrentScaleNotes {}).getD ((5 + 2) % 7) "" ++ toString (4 + 1) := by
  decide

/-- C1 (amended): for every degree, octave and scale list, the triad and
seventh-chord builders place the root and the third at the base octave
(no wrap is applied to the third), the fifth at `octave+1` exactly when
`degree+4 ≥ 7`, and (for the seventh chord) the 7th at `octave+1` exactly
when `degree+6 ≥ 7`, each test using the unwrapped sum. -/
theorem claim_C1 (degree octave : Nat) (scaleNotes : List String) :
    buildTriadFromScale degree scaleNotes octave = triadOctaveRule degree scaleNotes octave ∧
    buildSeventhFromScale degree scaleNotes octave =
      seventhOctaveRule degree scaleNotes octave := by
  unfold buildTriadFromScale buildSeventhFromScale triadOctaveRule seventhOctaveRule
  unfold chordTone wrappedOctave
  by_cases h4 : degree + 4 ≥ 7 <;> by_cases h6 : degree + 6 ≥ 7 <;> simp [h4, h6]

/-- C2: for every valid key and mode, every digit 2..9 and every octave,
`digitToChordNotes` returns 1, 3, 4 or 5 notes for the four chord
densities, and in each case the first element equals the single-note
result for the same degree and octave. -/
theorem claim_C2 (key mode : String) (digit oct : Nat)
    (_hk : key ∈ validKeys) (hm : mode ∈ modeNames) (h2 : 2 ≤ digit) (h9 : digit ≤ 9) :
    (digitToChordNotes (mkEngine key mode "none") digit oct).length = 1 ∧
    (digitToChordNotes (mkEngine key mode "triads") digit oct).length = 3 ∧
    (digitToChordNotes (mkEngine key mode "seventh") digit oct).length = 4 ∧
    (digitToChordNotes (mkEngine key mode "extended") digit oct).length = 5 ∧
    (digitToChordNotes (mkEngine key mode "triads") digit oct).getD 0 "" =
      (digitToChordNotes (mkEngine key mode "none") digit oct).getD 0 "" ∧
    (digitToChordNotes (mkEngine key mode "seventh") digit oct).getD 0 "" =
      (digitToChordNotes (mkEngine key mode "none") digit oct).getD 0 "" ∧
    (digitToChordNotes (mkEngine key mode "extended") digit oct).getD 0 "" =
      (digitToChordNotes (mkEngine key mode "none") digit oct).getD 0 "" := by
  rw [digitToChordNotes_none_eval key mode digit oct h2 h9 hm,
      digitToChordNotes_triads_eval key mode digit oct h2 h9 hm,
      digitToChordNotes_seventh_eval key mode digit oct h2 h9 hm,
      digitToChordNotes_extended_eval key mode digit oct h2 h9 hm]
  unfold buildTriadFromScale buildSeventhFromScale buildExtendedFromScale
  exact ⟨rfl, rfl, rfl, rfl, rfl, rfl, rfl⟩

/-- C2 witness at key C, mode ionian, digit 4, octave 4. -/
theorem claim_C2_witness :
    (digitToChordNotes (mkEngine "C" "ionian" "triads") 4 4).length = 3 ∧
    (digitToChordNotes (mkEngine "C" "ionian" "triads") 4 4).getD 0 "" =
      (digitToChordNotes (mkEngine "C" "ionian" "none") 4 4).getD 0 "" := by
  have h := claim_C2 "C" "ionian" 4 4 (by decide) (by decide) (by decide) (by decide)
  exact ⟨h.2.1, h.2.2.2.2.1⟩

/-- C3: for every valid key and mode the resolver is deterministic, the
scale has 8 entries, the first entry is the letter name of the key and the 8th
entry repeats the 1st. -/
theorem claim_C3 (key mode : String) (hk : key ∈ validKeys) (hm : mode ∈ modeNames) :
    getCurrentScaleNotes (mkEngine key mode "triads") =
      getCurrentScaleNotes (mkEngine key mode "triads") ∧
    (getCurrentScaleNotes (mkEngine key mode "triads")).length = 8 ∧
    (getCurrentScaleNotes (mkEngine key mode "triads")).getD 0 "" = key ∧
    (getCurrentScaleNotes (mkEngine key mode "triads")).getD 7 "" =
      (getCurrentScaleNotes (mkEngine key mode "triads")).getD 0 "" := by
  refine ⟨rfl, getCurrentScaleNotes_length _ hm, ?_, ?_⟩ <;>
    fin_cases hk <;> fin_cases hm <;> decide

/-- C3 witness at key E, mode lydian. -/
theorem claim_C3_witness :
    (getCurrentScaleNotes (mkEngine "E" "lydian" "triads")).getD 0 "" = "E" ∧
    (getCurrentScaleNotes (mkEngine "E" "lydian" "triads")).getD 7 "" =
      (getCurrentScaleNotes (mkEngine "E" "lydian" "triads")).getD 0 "" := by
  have h := claim_C3 "E" "lydian" (by decide) (by decide)
  exact ⟨h.2.2.1, h.2.2.2⟩

/-- C8: an unrecognized chord-density string falls through to the default
case of the switch: no failure, and exactly the single-note result. -/
theorem claim_C8 (key mode chord : String) (digit oct : Nat)
    (_hk : key ∈ validKeys) (hm : mode ∈ modeNames)
    (hc : chord ∉ recognizedChordNames) (h2 : 2 ≤ digit) (h9 : digit ≤ 9) :
    digitToChordNotes (mkEngine key mode chord) digit oct =
      [(getCurrentScaleNotes (mkEngine key mode chord)).getD (digit - 2) "" ++ toString oct] ∧
    digitToChordNotes (mkEngine key mode chord) digit oct =
      digitToChordNotes (mkEngine key mode "none") digit oct := by
  have h1 := digitToChordNotes_default_eval key mode chord digit oct h2 h9 hm hc
  have h2' := digitToChordNotes_none_eval key mode digit oct h2 h9 hm
  refine ⟨h1, ?_⟩
  rw [h1, h2']
  rfl

/-- C8 witness: density "power" behaves as single-note density. -/
theorem claim_C8_witness :
    digitToChordNotes (mkEngine "C" "ionian" "power") 5 4 =
      digitToChordNotes (mkEngine "C" "ionian" "none") 5 4 :=
  (claim_C8 "C" "ionian" "power" 5 4 (by decide) (by decide) (by decide) (by decide)
    (by decide)).2


lemma logb_two_two : Real.logb 2 ((2 : ℕ) : ℝ) = 1 := by
  rw [show ((2 : ℕ) : ℝ) = 2 by norm_num]
  exact Real.logb_self_eq_one (by norm_num)

lemma logb_two_four : Real.logb 2 ((4 : ℕ) : ℝ) = 2 := by
  rw [show ((4 : ℕ) : ℝ) = 2 ^ (2 : ℕ) by norm_num, Real.logb_pow,
    Real.logb_self_eq_one (by norm_num)]
  norm_num

lemma logb_two_eight : Real.logb 2 ((8 : ℕ) : ℝ) = 3 := by
  rw [show ((8 : ℕ) : ℝ) = 2 ^ (3 : ℕ) by norm_num, Real.logb_pow,
    Real.logb_self_eq_one (by norm_num)]
  norm_num

lemma calcVol_one (base : ℝ) : calculatePolyphonicVolume base 1 = base := by
  unfold calculatePolyphonicVolume
  norm_num

lemma calcVol_two (base : ℝ) :
    calculatePolyphonicVolume base 2 = max (-30) (min 0 (base - 3)) := by
  unfold calculatePolyphonicVolume
  rw [if_neg (by norm_num), logb_two_two]
  norm_num

lemma calcVol_four (base : ℝ) :
    calculatePolyphonicVolume base 4 = max (-30) (min 0 (base - 6)) := by
  unfold calculatePolyphonicVolume
  rw [if_neg (by norm_num), logb_two_four]
  norm_num

lemma calcVol_eight (base : ℝ) :
    calculatePolyphonicVolume base 8 = max (-30) (min 0 (base - 9)) := by
  unfold calculatePolyphonicVolume
  rw [if_neg (by norm_num), logb_two_eight]
  norm_num

/-- C6 counterexample: at base volume −40 dB the adjusted volume rises
from −40 (one note) to the −30 floor (two notes), so it is not
non-increasing in the note count, and at one note it sits below −30. -/
theorem claim_C6_counterexample :
    calculatePolyphonicVolume (-40) 1 = -40 ∧
    calculatePolyphonicVolume (-40) 2 = -30 ∧
    calculatePolyphonicVolume (-40) 1 < calculatePolyphonicVolume (-40) 2 ∧
    calculatePolyphonicVolume (-40) 1 < -30 := by
  have h1 := calcVol_one (-40)
  have h2 := calcVol_two (-40)
  have h2' : calculatePolyphonicVolume (-40) 2 = -30 := by
    rw [h2]; norm_num
  exact ⟨h1, h2', by rw [h1, h2']; norm_num, by rw [h1]; norm_num⟩

/-- C6 (amended): the function returns the base unchanged for at most one
note and the clamped logarithmic reduction otherwise; provided the base
volume is at least −30 dB (the engine always passes −6), the adjusted
volume over 1, 2, 4, 8 notes is non-increasing and never below −30. -/
theorem claim_C6 (base : ℝ) (N : ℕ) :
    (N ≤ 1 → calculatePolyphonicVolume base N = base) ∧
    (1 < N → calculatePolyphonicVolume base N =
      max (-30) (min 0 (base - Real.logb 2 N * 3))) ∧
    (-30 ≤ base →
      calculatePolyphonicVolume base 2 ≤ calculatePolyphonicVolume base 1 ∧
      calculatePolyphonicVolume base 4 ≤ calculatePolyphonicVolume base 2 ∧
      calculatePolyphonicVolume base 8 ≤ calculatePolyphonicVolume base 4 ∧
      -30 ≤ calculatePolyphonicVolume base 1 ∧
      -30 ≤ calculatePolyphonicVolume base 2 ∧
      -30 ≤ calculatePolyphonicVolume base 4 ∧
      -30 ≤ calculatePolyphonicVolume base 8) := by
  refine ⟨?_, ?_, ?_⟩
  · intro hN
    unfold calculatePolyphonicVolume
    rw [if_pos hN]
  · intro hN
    unfold calculatePolyphonicVolume
    rw [if_neg (by omega)]
  · intro hbase
    rw [calcVol_one, calcVol_two, calcVol_four, calcVol_eight]
    refine ⟨?_, ?_, ?_, hbase, ?_, ?_, ?_⟩
    · exact max_le hbase ((min_le_right _ _).trans (by linarith))
    · exact max_le_max (le_refl _) (min_le_min (le_refl _) (by linarith))
    · exact max_le_max (le_refl _) (min_le_min (le_refl _) (by linarith))
    · exact le_max_left _ _
    · exact le_max_left _ _
    · exact le_max_left _ _

/-- C6 witness at the base volume −6 dB used by the engine. -/
theorem claim_C6_witness :
    calculatePolyphonicVolume (-6) 1 = -6 ∧
    calculatePolyphonicVolume (-6) 2 ≤ calculatePolyphonicVolume (-6) 1 ∧
    -30 ≤ calculatePolyphonicVolume (-6) 8 := by
  have h := claim_C6 (-6) 1
  exact ⟨h.1 (le_refl 1), (h.2.2 (by norm_num)).1,
    (h.2.2 (by norm_num)).2.2.2.2.2.2⟩

/-- C7 counterexample: "toString" is not one of the 8 mode names, yet
`setMode` raises no error for it and overwrites the stored mode — the
truthiness guard of the source finds the inherited
`Object.prototype.toString` through the prototype chain. -/
theorem claim_C7_counterexample :
    "toString" ∉ modeNames ∧
    (setMode {} "toString").2 = none ∧
    (setMode {} "toString").1.currentMode = "toString" := by
  decide

set_option maxRecDepth 4000 in
/-- C7 (amended): an invalid key is rejected with the stored key unchanged
and an error message that names the rejected value and lists the valid
keys; likewise an invalid mode, provided its name is also not that of an
inherited `Object.prototype` member — such names pass the truthiness
guard of the source and are stored silently. -/
theorem claim_C7 (e : MusicTheoryEngine) (k m : String)
    (hk : k ∉ validKeys) (hm : m ∉ modeNames) (hmp : m ∉ objectPrototypeNames) :
    (setKey e k).1 = e ∧ (setKey e k).2 = some (keyErrorMsg k) ∧
    k.data <:+: (keyErrorMsg k).data ∧
    (∀ v ∈ validKeys, v.data <:+: (keyErrorMsg k).data) ∧
    (setMode e m).1 = e ∧ (setMode e m).2 = some (modeErrorMsg m) ∧
    m.data <:+: (modeErrorMsg m).data ∧
    (∀ v ∈ modeNames, v.data <:+: (modeErrorMsg m).data) := by
  refine ⟨?_, ?_, ?_, ?_, ?_, ?_, ?_, ?_⟩
  · simp [setKey, hk]
  · simp [setKey, hk]
  · exact ⟨"Invalid key: ".data,
      (". Valid keys: " ++ String.intercalate ", " validKeys).data,
      by simp [keyErrorMsg, String.data_append]⟩
  · intro v hv
    have hsuf : v.data <:+: (". Valid keys: " ++ String.intercalate ", " validKeys).data := by
      fin_cases hv <;> decide
    obtain ⟨a, b, hab⟩ := hsuf
    refine ⟨("Invalid key: " ++ k).data ++ a, b, ?_⟩
    have hsplit : (keyErrorMsg k).data =
        ("Invalid key: " ++ k).data ++
          (". Valid keys: " ++ String.intercalate ", " validKeys).data := by
      simp [keyErrorMsg, String.data_append]
    rw [hsplit, ← hab]
    simp [List.append_assoc]
  · simp [setMode, hm, hmp]
  · simp [setMode, hm, hmp]
  · exact ⟨"Invalid mode: ".data,
      (". Valid modes: " ++ String.intercalate ", " modeNames).data,
      by simp [modeErrorMsg, String.data_append]⟩
  · intro v hv
    have hsuf : v.data <:+: (". Valid modes: " ++ String.intercalate ", " modeNames).data := by
      fin_cases hv <;> decide
    obtain ⟨a, b, hab⟩ := hsuf
    refine ⟨("Invalid mode: " ++ m).data ++ a, b, ?_⟩
    have hsplit : (modeErrorMsg m).data =
        ("Invalid mode: " ++ m).data ++
          (". Valid modes: " ++ String.intercalate ", " modeNames).data := by
      simp [modeErrorMsg, String.data_append]
    rw [hsplit, ← hab]
    simp [List.append_assoc]

/-- C7 witness: key "H" and mode "blues" are rejected without touching
the configuration. -/
theorem claim_C7_witness :
    (setKey {} "H").1 = ({} : MusicTheoryEngine) ∧
    (setKey {} "H").2 = some (keyErrorMsg "H") ∧
    (setMode {} "blues").2 = some (modeErrorMsg "blues") := by
  have h := claim_C7 {} "H" "blues" (by decide) (by decide) (by decide)
  exact ⟨h.1, h.2.1, h.2.2.2.2.2.1⟩


lemma digitToChordNotes_ne_nil (e : MusicTheoryEngine) (hm : e.currentMode ∈ modeNames)
    (digit oct : Nat) (h2 : 2 ≤ digit) (h9 : digit ≤ 9) :
    digitToChordNotes e digit oct ≠ [] := by
  have hroot := scale_getD_ne e hm (digit - 2) (by omega)
  simp only [digitToChordNotes, digitToScaleDegree_eq h2 h9, Option.elim]
  rw [if_neg hroot]
  split_ifs <;>
    simp [buildTriadFromScale, buildSeventhFromScale, buildExtendedFromScale]

lemma melodyStep_state (s : AudioEngineState) (k : Nat) : (melodyStep s k).1 = s := by
  unfold melodyStep
  by_cases h : digitToChordNotes s.musicTheory k 4 = [] <;> simp [h]

lemma playDigitDispatch_state (s : AudioEngineState) (d : Char) :
    (playDigitDispatch s d).1.initialized = s.initialized ∧
    (playDigitDispatch s d).1.lastTriggerTime = s.lastTriggerTime ∧
    (playDigitDispatch s d).1.musicTheory = s.musicTheory := by
  unfold playDigitDispatch
  split_ifs <;> simp [melodyStep_state]

lemma melodyStep_ne (s : AudioEngineState) (k : Nat)
    (hm : s.musicTheory.currentMode ∈ modeNames) (h2 : 2 ≤ k) (h9 : k ≤ 9) :
    (melodyStep s k).2 ≠ [] := by
  unfold melodyStep
  rw [if_neg (digitToChordNotes_ne_nil s.musicTheory hm k 4 h2 h9)]
  simp

lemma playDigitDispatch_kick (s : AudioEngineState) :
    playDigitDispatch s '0' = ({ s with currentTheme := Theme.dark }, [Dispatch.kick]) := rfl

lemma playDigitDispatch_hihat (s : AudioEngineState) :
    playDigitDispatch s '1' = ({ s with currentTheme := Theme.light }, [Dispatch.hihat]) := rfl

lemma playDigitDispatch_melody2 (s : AudioEngineState) :
    playDigitDispatch s '2' = melodyStep s 2 := rfl

lemma playDigitDispatch_melody3 (s : AudioEngineState) :
    playDigitDispatch s '3' = melodyStep s 3 := rfl

lemma playDigitDispatch_melody4 (s : AudioEngineState) :
    playDigitDispatch s '4' = melodyStep s 4 := rfl

lemma playDigitDispatch_melody5 (s : AudioEngineState) :
    playDigitDispatch s '5' = melodyStep s 5 := rfl

lemma playDigitDispatch_melody6 (s : AudioEngineState) :
    playDigitDispatch s '6' = melodyStep s 6 := rfl

lemma playDigitDispatch_melody7 (s : AudioEngineState) :
    playDigitDispatch s '7' = melodyStep s 7 := rfl

lemma playDigitDispatch_melody8 (s : AudioEngineState) :
    playDigitDispatch s '8' = melodyStep s 8 := rfl

lemma playDigitDispatch_melody9 (s : AudioEngineState) :
    playDigitDispatch s '9' = melodyStep s 9 := rfl

lemma playDigitDispatch_ne (s : AudioEngineState) (d : Char)
    (hm : s.musicTheory.currentMode ∈ modeNames) (hd : d ∈ digitChars) :
    (playDigitDispatch s d).2 ≠ [] := by
  fin_cases hd
  · rw [playDigitDispatch_kick]; simp
  · rw [playDigitDispatch_hihat]; simp
  · rw [playDigitDispatch_melody2]; exact melodyStep_ne s 2 hm (by norm_num) (by norm_num)
  · rw [playDigitDispatch_melody3]; exact melodyStep_ne s 3 hm (by norm_num) (by norm_num)
  · rw [playDigitDispatch_melody4]; exact melodyStep_ne s 4 hm (by norm_num) (by norm_num)
  · rw [playDigitDispatch_melody5]; exact melodyStep_ne s 5 hm (by norm_num) (by norm_num)
  · rw [playDigitDispatch_melody6]; exact melodyStep_ne s 6 hm (by norm_num) (by norm_num)
  · rw [playDigitDispatch_melody7]; exact melodyStep_ne s 7 hm (by norm_num) (by norm_num)
  · rw [playDigitDispatch_melody8]; exact melodyStep_ne s 8 hm (by norm_num) (by norm_num)
  · rw [playDigitDispatch_melody9]; exact melodyStep_ne s 9 hm (by norm_num) (by norm_num)

lemma playDigit_accepted (s : AudioEngineState) (d : Char) (t : ℚ)
    (hinit : s.initialized = true)
    (hacc : ¬ t - s.lastTriggerTime < minTriggerGap) :
    playDigit s d t = playDigitDispatch { s with lastTriggerTime := t } d := by
  unfold playDigit
  rw [if_neg (by simp [hinit]), if_neg hacc]

/-- C9: before initialization every `playDigit` call is a silent no-op:
nothing is dispatched and the whole state (theme, last-trigger time) is
returned unchanged. -/
theorem claim_C9 (s : AudioEngineState) (d : Char) (t : ℚ)
    (hinit : s.initialized = false) :
    playDigit s d t = (s, []) := by
  unfold playDigit
  rw [if_pos hinit]

/-- C9 witness on the start state. -/
theorem claim_C9_witness : playDigit {} '5' 3 = (({} : AudioEngineState), []) :=
  claim_C9 {} '5' 3 rfl


lemma playDigit_throttled (s : AudioEngineState) (d : Char) (t : ℚ)
    (hinit : s.initialized = true) (hlt : t - s.lastTriggerTime < minTriggerGap) :
    playDigit s d t = (s, []) := by
  unfold playDigit
  rw [if_neg (by simp [hinit]), if_pos hlt]

/-- C4: on an initialized engine, an accepted trigger dispatches, a second
call less than 50 ms after the accepted trigger timestamp dispatches
nothing, and a second call at least 50 ms later dispatches again — so two
triggers under 50 ms apart yield exactly one dispatched call. -/
theorem claim_C4 (s : AudioEngineState) (d1 d2 : Char) (t1 t2 : ℚ)
    (hinit : s.initialized = true)
    (hm : s.musicTheory.currentMode ∈ modeNames)
    (hd1 : d1 ∈ digitChars) (hd2 : d2 ∈ digitChars)
    (hacc : ¬ t1 - s.lastTriggerTime < minTriggerGap) :
    (playDigit s d1 t1).2 ≠ [] ∧
    (t2 - t1 < minTriggerGap → (playDigit (playDigit s d1 t1).1 d2 t2).2 = []) ∧
    (¬ t2 - t1 < minTriggerGap → (playDigit (playDigit s d1 t1).1 d2 t2).2 ≠ []) := by
  have hstep := playDigit_accepted s d1 t1 hinit hacc
  have hstate := playDigitDispatch_state { s with lastTriggerTime := t1 } d1
  have h1init : (playDigit s d1 t1).1.initialized = true := by
    rw [hstep]; exact hstate.1.trans hinit
  have h1last : (playDigit s d1 t1).1.lastTriggerTime = t1 := by
    rw [hstep]; exact hstate.2.1
  have h1mus : (playDigit s d1 t1).1.musicTheory = s.musicTheory := by
    rw [hstep]; exact hstate.2.2
  refine ⟨?_, ?_, ?_⟩
  · rw [hstep]
    exact playDigitDispatch_ne _ d1 hm hd1
  · intro hlt
    rw [playDigit_throttled _ d2 t2 h1init (by rw [h1last]; exact hlt)]
  · intro hge
    have haccept := playDigit_accepted (playDigit s d1 t1).1 d2 t2 h1init
      (by rw [h1last]; exact hge)
    rw [haccept]
    refine playDigitDispatch_ne _ d2 ?_ hd2
    show (playDigit s d1 t1).1.musicTheory.currentMode ∈ modeNames
    rw [h1mus]; exact hm

/-- C4 witness: on a fresh initialized engine, digit 5 at t = 1 s
dispatches and digit 3 at t = 1.01 s is dropped. -/
theorem claim_C4_witness :
    (playDigit readyEngine '5' 1).2 ≠ [] ∧
    (playDigit (playDigit readyEngine '5' 1).1 '3' (1 + 1 / 100)).2 = [] := by
  have h := claim_C4 readyEngine '5' '3' 1 (1 + 1 / 100) rfl (by decide) (by decide)
    (by decide) (by norm_num [readyEngine, minTriggerGap])
  exact ⟨h.1, h.2.1 (by norm_num [minTriggerGap])⟩

/-- C5: the theme is a two-state machine with initial state dark: an
accepted digit 1 moves it to light, an accepted digit 0 moves it to dark,
and digits 2..9 never change it. -/
theorem claim_C5 :
    ({} : AudioEngineState).currentTheme = Theme.dark ∧
    (∀ (s : AudioEngineState) (t : ℚ), s.initialized = true →
      ¬ t - s.lastTriggerTime < minTriggerGap →
      (playDigit s '1' t).1.currentTheme = Theme.light) ∧
    (∀ (s : AudioEngineState) (t : ℚ), s.initialized = true →
      ¬ t - s.lastTriggerTime < minTriggerGap →
      (playDigit s '0' t).1.currentTheme = Theme.dark) ∧
    (∀ (s : AudioEngineState) (t : ℚ),
      ∀ d ∈ (['2', '3', '4', '5', '6', '7', '8', '9'] : List Char),
      (playDigit s d t).1.currentTheme = s.currentTheme) := by
  refine ⟨rfl, ?_, ?_, ?_⟩
  · intro s t hinit hacc
    rw [playDigit_accepted s _ t hinit hacc, playDigitDispatch_hihat]
  · intro s t hinit hacc
    rw [playDigit_accepted s _ t hinit hacc, playDigitDispatch_kick]
  · intro s t d hd
    unfold playDigit
    split_ifs with h1 h2
    · rfl
    · rfl
    · fin_cases hd <;>
        simp only [playDigitDispatch_melody2, playDigitDispatch_melody3,
          playDigitDispatch_melody4, playDigitDispatch_melody5, playDigitDispatch_melody6,
          playDigitDispatch_melody7, playDigitDispatch_melody8, playDigitDispatch_melody9,
          melodyStep_state]

/-- C5 witness: digit 1 then digit 7 on a fresh initialized engine. -/
theorem claim_C5_witness :
    (playDigit readyEngine '1' 1).1.currentTheme = Theme.light ∧
    (playDigit readyEngine '7' 1).1.currentTheme = readyEngine.currentTheme := by
  have h := claim_C5
  exact ⟨h.2.1 readyEngine 1 rfl (by norm_num [readyEngine, minTriggerGap]),
    h.2.2.2 readyEngine 1 '7' (by decide)⟩

/-- C10: an accepted call with a non-digit character dispatches nothing
and changes no state except the last-trigger time, which it does update,
so a valid digit less than 50 ms later is dropped by the throttle. -/
theorem claim_C10 (s : AudioEngineState) (c : Char) (t : ℚ)
    (hinit : s.initialized = true)
    (hacc : ¬ t - s.lastTriggerTime < minTriggerGap)
    (hc : c ∉ digitChars) :
    playDigit s c t = ({ s with lastTriggerTime := t }, []) ∧
    (playDigit s c t).1.currentTheme = s.currentTheme ∧
    (playDigit s c t).1.lastTriggerTime = t ∧
    (∀ d ∈ digitChars, ∀ t2 : ℚ, t2 - t < minTriggerGap →
      (playDigit (playDigit s c t).1 d t2).2 = []) := by
  have hdef : playDigitDispatch { s with lastTriggerTime := t } c =
      ({ s with lastTriggerTime := t }, []) := by
    simp only [digitChars, List.mem_cons, List.not_mem_nil, or_false, not_or] at hc
    obtain ⟨h0, h1, h2, h3, h4, h5, h6, h7, h8, h9⟩ := hc
    unfold playDigitDispatch
    rw [if_neg h0, if_neg h1, if_neg h2, if_neg h3, if_neg h4, if_neg h5, if_neg h6,
      if_neg h7, if_neg h8, if_neg h9]
  have hmain : playDigit s c t = ({ s with lastTriggerTime := t }, []) := by
    rw [playDigit_accepted s c t hinit hacc, hdef]
  refine ⟨hmain, by rw [hmain], by rw [hmain], ?_⟩
  intro d _ t2 hlt
  rw [hmain]
  rw [playDigit_throttled _ d t2
    (show ({ s with lastTriggerTime := t } : AudioEngineState).initialized = true from hinit)
    (show t2 - ({ s with lastTriggerTime := t } :
        AudioEngineState).lastTriggerTime < minTriggerGap from hlt)]

/-- C10 witness: the decimal point at t = 1 s updates the throttle clock
and digit 7 at t = 1.02 s is dropped. -/
theorem claim_C10_witness :
    playDigit readyEngine '.' 1 = ({ readyEngine with lastTriggerTime := 1 }, []) ∧
    (playDigit (playDigit readyEngine '.' 1).1 '7' (1 + 1 / 50)).2 = [] := by
  have h := claim_C10 readyEngine '.' 1 rfl
    (by norm_num [readyEngine, minTriggerGap]) (by decide)
  exact ⟨h.1, h.2.2.2 '7' (by decide) (1 + 1 / 50) (by norm_num [minTriggerGap])⟩

end AmaPiano
